import Mathlib

/-!
Verification of the manifest-lock reconciliation and installation
orchestration engine of `pipenv/cli.py`.

Python strings are embedded as `List Char`; machine-level process results
are embedded as a record of captured stdout, stderr and a numeric exit
code.  Each section below embeds one function of the source file and is
followed (at the end of the file) by the theorems that settle the claims
about it.
-/

/-- Conversion from a Lean string literal to the `List Char` embedding of a
Python string. -/
def strToL (s : String) : List Char := s.toList

/-- Embedding of `sub in s` for Python strings. -/
def containsSub (sub : List Char) : List Char → Bool
  | [] => sub.isEmpty
  | c :: rest => sub.isPrefixOf (c :: rest) || containsSub sub rest

/-- Worker for `splitOnL`: scans the input, cutting at each occurrence of
the (non-empty) separator `c0 :: sepRest`, exactly as Python `str.split`
with a non-empty separator.  The `fuel` parameter only carries the
structural recursion; the wrapper passes the input length, which the scan
never exhausts. -/
def splitOnLAux (c0 : Char) (sepRest : List Char) :
    Nat → List Char → List Char → List (List Char) → List (List Char)
  | _, [], cur, acc => (cur.reverse :: acc).reverse
  | 0, s, cur, acc => ((cur.reverse ++ s) :: acc).reverse
  | fuel + 1, c :: rest, cur, acc =>
    if (c0 :: sepRest).isPrefixOf (c :: rest) then
      splitOnLAux c0 sepRest fuel (rest.drop sepRest.length) [] (cur.reverse :: acc)
    else
      splitOnLAux c0 sepRest fuel rest (c :: cur) acc

/-- Embedding of Python `s.split(sep)` for a separator string `sep`. -/
def splitOnL (sep : List Char) (s : List Char) : List (List Char) :=
  match sep with
  | [] => [s]
  | c0 :: sepRest => splitOnLAux c0 sepRest s.length s [] []

/-- Embedding of Python `sep.join(xs)`. -/
def intercalateL (sep : List Char) (xs : List (List Char)) : List Char :=
  (List.intersperse sep xs).flatten

/-- Embedding of Python `s.strip()` (whitespace trim at both ends). -/
def trimL (cs : List Char) : List Char :=
  ((cs.dropWhile Char.isWhitespace).reverse.dropWhile Char.isWhitespace).reverse

/-- Embedding of Python `s.lower()`. -/
def lowerL (cs : List Char) : List Char := cs.map Char.toLower

/-- Index of the last dot of a filename, if any. -/
def lastDotIdx (cs : List Char) : Option Nat :=
  match cs.reverse.findIdx? (fun c => c = '.') with
  | none => none
  | some j => some (cs.length - 1 - j)

/-- Embedding of Python `os.path.splitext` for a bare filename (no
directory separators): splits off the suffix that starts at the last dot,
unless every character before that dot is itself a dot. -/
def splitextL (cs : List Char) : List Char × List Char :=
  match lastDotIdx cs with
  | none => (cs, [])
  | some i =>
    if (cs.take i).any (fun c => c ≠ '.') then (cs.take i, cs.drop i)
    else (cs, [])

/-- Embedding of Python `s.isdigit()` restricted to ASCII digits: true for
a non-empty all-digit string. -/
def pyIsdigit (cs : List Char) : Bool :=
  !cs.isEmpty && cs.all (fun c => c.isDigit)

/-- Hexadecimal value of a character, used by percent-decoding. -/
def hexVal (c : Char) : Option Nat :=
  if c.isDigit then some (c.toNat - 48)
  else if 'a' ≤ c ∧ c ≤ 'f' then some (c.toNat - 87)
  else if 'A' ≤ c ∧ c ≤ 'F' then some (c.toNat - 55)
  else none

/-- Embedding of `requests.compat.unquote` on ASCII input: decodes each
`%hh` escape; a `%` not followed by two hex digits is kept literally. -/
def unquoteL : List Char → List Char
  | [] => []
  | '%' :: a :: b :: rest =>
    match hexVal a, hexVal b with
    | some x, some y => Char.ofNat (16 * x + y) :: unquoteL rest
    | _, _ => '%' :: unquoteL (a :: b :: rest)
  | c :: rest => c :: unquoteL rest

/-- Captured result of one external process invocation, as produced by
`delegator.run` in the source: stdout, stderr, and the exit code. -/
structure CmdResult where
  out : String
  err : String
  return_code : Nat
deriving DecidableEq

/-- A configured package source, as read from the manifest store
(`project.sources`). -/
structure Source where
  name : String
  url : String
  verify_ssl : Bool
deriving DecidableEq

/-! ## Staleness decision in `do_init` (cli.py lines 641-659) -/

/-- Embedding of the lock-regeneration decision of `do_init`: the first
branch re-locks an existing lock when the recorded `_meta.hash.sha256`
differs from the hash of the current Pipfile (`p.hash`), guarded by
`ignore_pipfile` and `skip_lock`; the second branch re-locks when no lock
file exists, guarded by `skip_lock`. -/
def do_init_relock (lockfile_exists ignore_pipfile skip_lock : Bool)
    (recorded_sha256 : Option String) (pipfile_hash : String) : Bool :=
  if lockfile_exists && !ignore_pipfile && !skip_lock then
    !(recorded_sha256 == some pipfile_hash)
  else if !lockfile_exists && !skip_lock then
    true
  else
    false

/-- Modelled from the spec: the staleness predicate of section 4.6, which
is not a named function in the reviewed slice.  True if the lock is
absent, if the recorded manifest hash is absent, or if the recorded hash
differs from the freshly computed hash of the manifest. -/
def spec_is_stale (lock_exists : Bool) (recorded_sha256 : Option String)
    (pipfile_hash : String) : Bool :=
  !lock_exists || recorded_sha256.isNone || !(recorded_sha256 == some pipfile_hash)

/-- Embedding of the two assignments of `do_init` just before it calls
`do_install_dependencies` (cli.py lines 663-664): the merged flag is
computed and then unconditionally overwritten with `False`. -/
def do_init_install_ignore_hashes (ignore_hashes no_hashes : Bool) : Bool :=
  let ignore_hashes := ignore_hashes || no_hashes
  let ignore_hashes := false
  ignore_hashes

/-! ## Installation loop of `do_install_dependencies` (cli.py lines 330-339) -/

/-- Outcome of the installation loop: either every entry installed, or the
run aborted at the first failing entry, recording the names installed
before it, the failing entry's captured stdout and stderr, and the exit
code passed to `sys.exit`. -/
inductive InstallOutcome where
  | success (installed : List String)
  | aborted (installed : List String) (out : String) (err : String) (code : Nat)
deriving DecidableEq

/-- Embedding of the `for dep, ignore_hash in progress.bar(deps_list)`
loop of `do_install_dependencies`: each entry is handed to `pip_install`
(abstracted as `run`) in plan order; on the first non-zero exit code the
loop stops and the run exits with that code, surfacing that entry's
captured output. -/
def do_install_dependencies (run : String → Bool → CmdResult) :
    List (String × Bool) → InstallOutcome
  | [] => InstallOutcome.success []
  | (dep, ih) :: rest =>
    let c := run dep ih
    if c.return_code ≠ 0 then
      InstallOutcome.aborted [] c.out c.err c.return_code
    else
      match do_install_dependencies run rest with
      | InstallOutcome.success l => InstallOutcome.success (dep :: l)
      | InstallOutcome.aborted l o e k => InstallOutcome.aborted (dep :: l) o e k

/-! ## Source fallback loop of `pip_install` and `pip_download`
(cli.py lines 682-724) -/

/-- Embedding of the `for source in project.sources` loop shared by
`pip_install` and `pip_download`: each source is attempted in declared
order, the loop breaks on the first zero exit code, and the result
variable of the last executed attempt is returned.  On an empty source
list the loop body never runs and the result variable is unbound, hence
`none`. -/
def for_each_source (attempt : Source → CmdResult) : List Source → Option CmdResult
  | [] => none
  | s :: rest =>
    let c := attempt s
    if c.return_code = 0 then some c
    else
      match for_each_source attempt rest with
      | none => some c
      | some r => some r

/-- Embedding of the `install_reqs` computation of `pip_install`: a
requirements file, when present as `(path, content)`, is passed with
`-r`; an editable argument keeps its `-e` flag and quotes the remainder;
any other package argument is simply quoted. -/
def pip_install_reqs (r : Option (List Char × List Char)) (package_name : List Char) :
    List Char :=
  match r with
  | some pc => strToL (" -r ") ++ pc.1
  | none =>
    if (strToL ("-e ")).isPrefixOf package_name then
      strToL (" -e \"") ++ (splitOnL (strToL ("-e ")) package_name).getD 1 [] ++ strToL ("\"")
    else
      strToL (" \"") ++ package_name ++ strToL ("\"")

/-- Embedding of the hash-mode downgrade of `pip_install` (cli.py lines
691-698): when the requirements text (the temp file for hash mode, or the
inline argument otherwise) has no `--hash` entry, `ignore_hashes` is
forced on for this invocation. -/
def pip_install_ignore_hashes (r : Option (List Char × List Char))
    (install_reqs : List Char) (ignore_hashes : Bool) : Bool :=
  match r with
  | some pc => if containsSub (strToL ("--hash")) pc.2 then ignore_hashes else true
  | none => if containsSub (strToL ("--hash")) install_reqs then ignore_hashes else true

/-- Embedding of the `pip_command` format string of `pip_install`:
`"{pip}" install {no_deps} {reqs} -i {url} --exists-action w`. -/
def pip_install_command (pip no_deps_flag install_reqs url : List Char) : List Char :=
  strToL ("\"") ++ pip ++ strToL ("\" install ") ++ no_deps_flag ++ strToL (" ") ++
    install_reqs ++ strToL (" -i ") ++ url ++ strToL (" --exists-action w")

/-- Embedding of `pip_install` (cli.py lines 674-715).  `run` abstracts
`delegator.run`; `r0` is the caller-supplied requirements file as a
`(path, content)` pair; when it is absent and hash checking is on, the
temp requirements file holding `package_name` is created.  The loop-body
computations of the source do not vary between iterations, so they are
hoisted before the `for_each_source` loop. -/
def pip_install (run : List Char → CmdResult) (pip package_name : List Char)
    (r0 : Option (List Char × List Char)) (ignore_hashes no_deps : Bool)
    (sources : List Source) : Option CmdResult :=
  let r : Option (List Char × List Char) :=
    match r0 with
    | some pc => some pc
    | none =>
      if ignore_hashes then none
      else some (strToL ("pipenv-requirement.txt"), package_name)
  let install_reqs0 := pip_install_reqs r package_name
  let ih := pip_install_ignore_hashes r install_reqs0 ignore_hashes
  let install_reqs :=
    if ih then install_reqs0 else install_reqs0 ++ strToL (" --require-hashes")
  let no_deps_flag := if no_deps then strToL ("--no-deps") else []
  for_each_source
    (fun s => run (pip_install_command pip no_deps_flag install_reqs (strToL s.url)))
    sources

/-- Embedding of the command built by `pip_download` (cli.py lines
718-724): `"{pip}" download "{pkg}" -i {url} -d {download_location}`. -/
def pip_download_command (pip package_name download_location url : List Char) :
    List Char :=
  strToL ("\"") ++ pip ++ strToL ("\" download \"") ++ package_name ++
    strToL ("\" -i ") ++ url ++ strToL (" -d ") ++ download_location

/-- Embedding of `pip_download`: the same per-source fallback loop as
`pip_install`, around the download command. -/
def pip_download (run : List Char → CmdResult) (pip package_name download_location : List Char)
    (sources : List Source) : Option CmdResult :=
  for_each_source
    (fun s => run (pip_download_command pip package_name download_location (strToL s.url)))
    sources

/-! ## Output parsing (cli.py lines 385-424 and 462-478) -/

/-- Modelled from the spec: `pep423_name` lives in `pipenv/utils.py`,
outside the reviewed slice; section 4.2 says the declared name is
case-folded to the ecosystem's canonical name form. -/
def pep423_name (name : List Char) : List Char := lowerL name

/-- Embedding of `parse.parse('Saved {file}', line)`: the line must start
with the literal text and the rest is captured. -/
def parseSaved (line : List Char) : Option (List Char) :=
  if (strToL ("Saved ")).isPrefixOf line then some (line.drop 6) else none

/-- Embedding of `parse.parse('Using cached {file}', line)`. -/
def parseUsingCached (line : List Char) : Option (List Char) :=
  if (strToL ("Using cached ")).isPrefixOf line then some (line.drop 13) else none

/-- Embedding of the inner line scan of `parse_install_output`: the first
line matching a save confirmation wins, later lines are not inspected. -/
def firstSaved : List (List Char) → Option (List Char)
  | [] => none
  | l :: rest =>
    match parseSaved (trimL l) with
    | some f => some f
    | none =>
      match parseUsingCached (trimL l) with
      | some f => some f
      | none => firstSaved rest

/-- Embedding of the per-section body of `parse_install_output`: the first
line yields the declared name (parenthetical annotation and environment
marker clause trimmed, then normalized); the saved filename, when one is
confirmed, is reduced to its basename (`os.sep` is `/`), a literal `./`
prefix is stripped, and percent escapes are decoded.  A section with no
save confirmation contributes nothing. -/
def sectionEntry (sectionText : List Char) : Option (List Char × List Char) :=
  let lines := splitOnL (strToL ("\n")) sectionText
  let name0 := (splitOnL (strToL ("(")) (lines.getD 0 [])).getD 0 []
  let name1 := (splitOnL (strToL (";")) name0).getD 0 []
  let name := pep423_name (trimL name1)
  match firstSaved lines with
  | none => none
  | some file =>
    let fname0 := (splitOnL (strToL ("/")) file).getLastD []
    let fname1 := if (strToL ("./")).isPrefixOf fname0 then fname0.drop 2 else fname0
    some (unquoteL fname1, name)

/-- Embedding of `parse_install_output` (cli.py lines 385-424): the output
is split on the `Collecting ` section delimiter and each section
contributes at most one `(filename, name)` pair. -/
def parse_install_output (output : List Char) : List (List Char × List Char) :=
  (splitOnL (strToL ("Collecting ")) output).filterMap sectionEntry

/-- Embedding of `parse_download_fname` (cli.py lines 462-478): strip the
archive extension (twice for `.tar.*`), drop the three wheel tag segments
of a `.whl` name, cut off the leading `<name>-` prefix, and drop a
trailing `-<digits>` implicit post-release segment. -/
def parse_download_fname (fname : List Char) (name : List Char) : List Char :=
  let p1 := splitextL fname
  let f2 :=
    if p1.2 = strToL (".whl") then
      intercalateL (strToL ("-"))
        (List.take ((splitOnL (strToL ("-")) p1.1).length - 3) (splitOnL (strToL ("-")) p1.1))
    else p1.1
  let f3 := if (strToL (".tar")).isSuffixOf f2 then (splitextL f2).1 else f2
  let version := f3.drop (name.length + 1)
  if containsSub (strToL ("-")) version &&
      pyIsdigit ((splitOnL (strToL ("-")) version).getD 1 []) then
    (splitOnL (strToL ("-")) version).getD 0 []
  else version

/-! ## Lock serialization of `do_lock` (cli.py lines 550-554) -/

/-- JSON documents as they appear in the lock artifact: strings, arrays
and objects (the lock content uses no other node kind). -/
inductive Json where
  | str (s : List Char)
  | arr (elems : List Json)
  | obj (fields : List (List Char × Json))

/-- Key order used by `sort_keys=True`: lexicographic order of the field
names. -/
def fieldLe (a b : List Char × Json) : Prop := a.1 ≤ b.1

/-- Strict key order, used to show that sorting is unambiguous on
duplicate-free key sets. -/
def fieldLt (a b : List Char × Json) : Prop := a.1 < b.1

instance : DecidableRel fieldLe := fun a b => inferInstanceAs (Decidable (a.1 ≤ b.1))

instance : IsTotal (List Char × Json) fieldLe := ⟨fun a b => le_total a.1 b.1⟩

instance : IsTrans (List Char × Json) fieldLe := ⟨fun _ _ _ h1 h2 => le_trans h1 h2⟩

instance : IsAntisymm (List Char × Json) fieldLt :=
  ⟨fun _ _ h1 h2 => absurd (lt_trans h1 h2) (lt_irrefl _)⟩

/-- Sorting of an object's fields by key, as performed by
`json.dump(..., sort_keys=True)`. -/
def sortFields (fs : List (List Char × Json)) : List (List Char × Json) :=
  List.insertionSort fieldLe fs

mutual

/-- Recursive key sorting of a document, the effect of `sort_keys=True`
at every nesting level. -/
def canonicalize : Json → Json
  | Json.str s => Json.str s
  | Json.arr es => Json.arr (canonList es)
  | Json.obj fs => Json.obj (sortFields (canonFields fs))

/-- Key sorting applied to every element of an array. -/
def canonList : List Json → List Json
  | [] => []
  | e :: es => canonicalize e :: canonList es

/-- Key sorting applied to every value of an object. -/
def canonFields : List (List Char × Json) → List (List Char × Json)
  | [] => []
  | (k, v) :: fs => (k, canonicalize v) :: canonFields fs

end

/-- Opening brace character, kept out of string literals. -/
def lbrace : Char := Char.ofNat 123

/-- Closing brace character, kept out of string literals. -/
def rbrace : Char := Char.ofNat 125

/-- Escaping of one character inside a JSON string literal. -/
def escapeChar (c : Char) : List Char :=
  if c = '\\' then strToL ("\\\\")
  else if c = '\"' then strToL ("\\\"")
  else if c = '\n' then strToL ("\\n")
  else if c = '\t' then strToL ("\\t")
  else if c = '\r' then strToL ("\\r")
  else [c]

/-- A JSON string literal: quoted and escaped. -/
def jsonQuote (s : List Char) : List Char :=
  '\"' :: (s.map escapeChar).flatten ++ ['\"']

/-- Indentation produced by `indent=4` at a nesting level. -/
def indentL (lvl : Nat) : List Char := List.replicate (4 * lvl) ' '

mutual

/-- Rendering of a key-sorted document exactly as
`json.dump(lockfile, f, indent=4, separators=(',', ': '), sort_keys=True)`
lays it out: four-space indentation, `,` plus newline between items, `: `
after keys, and empty containers on one line. -/
def render : Json → Nat → List Char
  | Json.str s, _ => jsonQuote s
  | Json.arr [], _ => strToL ("[]")
  | Json.arr (e :: es), lvl =>
    strToL ("[\n") ++ renderItems (e :: es) (lvl + 1) ++
      '\n' :: indentL lvl ++ strToL ("]")
  | Json.obj [], _ => [lbrace, rbrace]
  | Json.obj (f :: fs), lvl =>
    lbrace :: '\n' :: renderFields (f :: fs) (lvl + 1) ++
      '\n' :: indentL lvl ++ [rbrace]

/-- Rendering of the comma-separated items of a non-empty array. -/
def renderItems : List Json → Nat → List Char
  | [], _ => []
  | [e], lvl => indentL lvl ++ render e lvl
  | e :: e2 :: es, lvl =>
    indentL lvl ++ render e lvl ++ strToL (",\n") ++ renderItems (e2 :: es) lvl

/-- Rendering of the comma-separated fields of a non-empty object. -/
def renderFields : List (List Char × Json) → Nat → List Char
  | [], _ => []
  | [f], lvl => indentL lvl ++ jsonQuote f.1 ++ strToL (": ") ++ render f.2 lvl
  | f :: f2 :: fs, lvl =>
    indentL lvl ++ jsonQuote f.1 ++ strToL (": ") ++ render f.2 lvl ++
      strToL (",\n") ++ renderFields (f2 :: fs) lvl

end

/-- Embedding of the serialization step of `do_lock` (cli.py lines
551-554): the lock document is dumped with sorted keys, 4-space
indentation and the `(',', ': ')` separators, and a single newline is
written after the document. -/
def do_lock_serialize (lockfile : Json) : List Char :=
  render (canonicalize lockfile) 0 ++ ['\n']

/-! ## Persistence discipline of `do_lock` (cli.py lines 550-554) -/

/-- File-system operations a writer can perform, enough to distinguish a
direct overwrite from a write-then-rename discipline. -/
inductive FsOp where
  | openTrunc (path : String)
  | write (path : String) (data : List Char)
  | rename (src : String) (dst : String)
deriving DecidableEq

/-- The operation sequence performed by
`with open(project.lockfile_location, 'w') as f: json.dump(...); f.write('\n')`:
the destination itself is opened for writing (truncating it), the
serialized document is written, then the trailing newline. -/
def do_lock_write_ops (dest : String) (serialized : List Char) : List FsOp :=
  [FsOp.openTrunc dest, FsOp.write dest serialized, FsOp.write dest (strToL ("\n"))]

/-- Effect of one operation on the file system, a map from path to
content: truncation empties the file, a write appends, a rename moves the
source content over the destination. -/
def applyOp (fs : String → List Char) : FsOp → String → List Char
  | FsOp.openTrunc p => fun q => if q = p then [] else fs q
  | FsOp.write p d => fun q => if q = p then fs q ++ d else fs q
  | FsOp.rename src dst =>
    fun q => if q = dst then fs src else if q = src then [] else fs q

/-- Effect of an operation sequence, applied left to right. -/
def runOps (fs : String → List Char) : List FsOp → String → List Char
  | [] => fs
  | op :: rest => runOps (applyOp fs op) rest

/-- Whether one operation is a rename. -/
def isRenameOp : FsOp → Bool
  | FsOp.rename _ _ => true
  | _ => false

/-- Whether a writer ever uses a rename, the defining step of an atomic
write-then-rename discipline. -/
def usesRename (ops : List FsOp) : Bool :=
  ops.any isRenameOp

/-! ## Lock section synthesis of `do_lock` (cli.py lines 512-540) -/

/-- An entry of the `default` or `develop` map of the lock under
construction: either a plain string value (as a Pipfile-style constraint)
or a dict with a pinned version and optional hashes. -/
inductive LockEntry where
  | str (value : String)
  | dict (version : String) (hashes : Option (List String))
deriving DecidableEq

/-- One package resolved by `resolve_deps`. -/
structure Resolved where
  name : String
  version : String
  hashes : List String
deriving DecidableEq

/-- The lock document of `do_lock`, reduced to the parts the synthesis
touches: the `_meta` hash and host markers, and the two package maps. -/
structure Lockfile where
  meta_hash : Option String
  meta_markers : Option String
  default : List (String × LockEntry)
  develop : List (String × LockEntry)
deriving DecidableEq

/-- The `hasattr(v, 'keys')` test of the cleanup loop of `do_lock`: true
exactly for dict-valued entries. -/
def isDictEntry (kv : String × LockEntry) : Bool :=
  match kv.2 with
  | LockEntry.dict _ _ => true
  | LockEntry.str _ => false

/-- Embedding of the cleanup loop of `do_lock` (cli.py lines 515-518):
entries whose value has no `keys` attribute (plain strings) are deleted;
dict entries are kept. -/
def cleanup_section (section0 : List (String × LockEntry)) : List (String × LockEntry) :=
  section0.filter isDictEntry

/-- Embedding of Python `dict.update({k: v})` on an insertion-ordered
map: an existing key keeps its position and gets the new value, a new key
is appended. -/
def dict_update (section0 : List (String × LockEntry)) (k : String) (v : LockEntry) :
    List (String × LockEntry) :=
  if section0.any (fun kv => kv.1 == k) then
    section0.map (fun kv => if kv.1 == k then (k, v) else kv)
  else
    section0 ++ [(k, v)]

/-- The entry written for one resolved package: pinned `==version`, plus
the hash list unless `no_hashes` is set (cli.py lines 524-527, 537-540). -/
def mkLockEntry (no_hashes : Bool) (dep : Resolved) : LockEntry :=
  LockEntry.dict ("==" ++ dep.version) (if no_hashes then none else some dep.hashes)

/-- Embedding of the per-result update loop of `do_lock`: each resolver
result is merged into the section with `dict.update`. -/
def add_results (no_hashes : Bool) (section0 : List (String × LockEntry)) :
    List Resolved → List (String × LockEntry)
  | [] => section0
  | dep :: rest =>
    add_results no_hashes (dict_update section0 dep.name (mkLockEntry no_hashes dep)) rest

/-- Embedding of the lock-content synthesis of `do_lock` (cli.py lines
512-548): starting from the existing lock document, both sections are
cleaned of non-dict entries and the resolver results are merged in; the
`_meta` hash is left untouched while the host-environment markers are
regenerated. -/
def do_lock_update (start : Lockfile) (devResults defResults : List Resolved)
    (markers : String) (no_hashes : Bool) : Lockfile :=
  { meta_hash := start.meta_hash
    meta_markers := some markers
    default := add_results no_hashes (cleanup_section start.default) defResults
    develop := add_results no_hashes (cleanup_section start.develop) devResults }

/-! ## Concrete fixtures used by witness and counterexample theorems -/

/-- An installer stub for which the plan entry `p2` fails and every other
entry succeeds. -/
def runEx : String → Bool → CmdResult := fun dep _ =>
  if dep = "p2" then { out := "boom-out", err := "boom-err", return_code := 1 }
  else { out := "fine", err := "", return_code := 0 }

/-- A first configured source. -/
def srcA : Source := { name := "A", url := "https://a.example/simple", verify_ssl := true }

/-- A second configured source. -/
def srcB : Source := { name := "B", url := "https://b.example/simple", verify_ssl := true }

/-- An attempt stub for which source `A` always fails and every other
source succeeds. -/
def attemptEx : Source → CmdResult := fun s =>
  if s.name = "A" then { out := "a-out", err := "a-err", return_code := 1 }
  else { out := "b-out", err := "", return_code := 0 }

/-- An installer stub that fails exactly when the command carries the
`--require-hashes` flag. -/
def runHashEx : List Char → CmdResult := fun cmd =>
  if containsSub (strToL (" --require-hashes")) cmd then
    { out := "hash-mode", err := "", return_code := 1 }
  else { out := "ok", err := "", return_code := 0 }

/-- Two lock-document field lists that differ only in field order. -/
def jsonFieldsEx1 : List (List Char × Json) :=
  [(strToL ("develop"), Json.obj []), (strToL ("default"), Json.obj [])]

/-- The same fields as `jsonFieldsEx1`, declared in the other order. -/
def jsonFieldsEx2 : List (List Char × Json) :=
  [(strToL ("default"), Json.obj []), (strToL ("develop"), Json.obj [])]

/-- A starting lock state holding a dict-valued entry (`ghost`) and a
string-valued entry (`old`). -/
def lockStartEx : Lockfile :=
  { meta_hash := some ("abc123")
    meta_markers := none
    default := [("kept", LockEntry.dict ("==0.1") none), ("old", LockEntry.str ("*"))]
    develop := [("ghost", LockEntry.dict ("==1.0") none)] }

/-- One freshly resolved package. -/
def resolvedEx : Resolved :=
  { name := "requests", version := "2.18.4", hashes := ["sha256:aaaa"] }

/-! ## Claim theorems -/

/-- C1: with the staleness branch enabled (`ignore_pipfile` and
`skip_lock` at their `False` defaults), `do_init` triggers `do_lock`
exactly when the lock is absent, when its recorded `_meta.hash.sha256` is
absent, or when that recorded hash differs from the freshly computed
manifest hash; when the hashes are equal no re-lock occurs. -/
theorem do_init_relock_iff_stale (lockfile_exists : Bool)
    (recorded_sha256 : Option String) (pipfile_hash : String) :
    do_init_relock lockfile_exists false false recorded_sha256 pipfile_hash =
      spec_is_stale lockfile_exists recorded_sha256 pipfile_hash := by
  cases lockfile_exists <;> cases recorded_sha256 <;>
    simp [do_init_relock, spec_is_stale]

/-- C10: whatever `ignore_hashes` and `no_hashes` were passed to
`do_init`, the flag handed to `do_install_dependencies` is `False`: the
merged value is computed and then unconditionally overwritten. -/
theorem do_init_ignore_hashes_overridden (ignore_hashes no_hashes : Bool) :
    do_init_install_ignore_hashes ignore_hashes no_hashes = false := rfl

/-- C8 counterexample: on `alpha-1.2.3.post1.tar.gz` the extracted version
is not `1.2.3` — the explicit `.post1` segment contains no dash, so the
dash-plus-digits drop never fires and the post-release segment is kept. -/
theorem parse_download_fname_post1_cex :
    parse_download_fname (strToL ("alpha-1.2.3.post1.tar.gz")) (strToL ("alpha")) ≠
      strToL ("1.2.3") := by
  decide

/-- C8 amended: the wheel example extracts `1.2.3`; the `.post1` tarball
keeps its explicit post-release segment and extracts `1.2.3.post1`; only a
remaining dash followed by a purely numeric segment (an implicit
post-release such as `-1`) is dropped from the extracted version. -/
theorem parse_download_fname_examples :
    parse_download_fname (strToL ("alpha-1.2.3-py3-none-any.whl")) (strToL ("alpha")) =
        strToL ("1.2.3") ∧
      parse_download_fname (strToL ("alpha-1.2.3.post1.tar.gz")) (strToL ("alpha")) =
        strToL ("1.2.3.post1") ∧
      parse_download_fname (strToL ("alpha-1.2.3-1.tar.gz")) (strToL ("alpha")) =
        strToL ("1.2.3") := by
  decide

/-- C9: the example section text yields exactly one pair, whose resolved
filename is `alpha-1.2.3-py3-none-any.whl` (leading `./` artifact gone)
and whose declared name is `alpha` (parenthetical annotation trimmed and
case-folded); a section with no save confirmation yields no pair, and the
parser is total.  The source emits the pair in `(filename, name)`
component order. -/
theorem parse_install_output_example :
    parse_install_output
        (strToL ("alpha (from beta)\nSaved ./alpha-1.2.3-py3-none-any.whl\n")) =
        [(strToL ("alpha-1.2.3-py3-none-any.whl"), strToL ("alpha"))] ∧
      parse_install_output
        (strToL ("gamma (from beta)\nno save confirmation in this section\n")) = [] := by
  decide

/-- C5 counterexample: `do_lock` opens the destination itself with mode
`w`; interrupting after the very first operation (the truncation) leaves
the lock file empty — neither the prior valid content `OLD` nor the new
document — and the operation sequence contains no rename at all, so the
write is not a write-then-rename discipline. -/
theorem do_lock_write_not_atomic_cex :
    runOps (fun q => if q = "Pipfile.lock" then strToL ("OLD") else [])
        (List.take 1 (do_lock_write_ops ("Pipfile.lock") (strToL ("NEW"))))
        ("Pipfile.lock") = [] ∧
      runOps (fun q => if q = "Pipfile.lock" then strToL ("OLD") else [])
        (List.take 2 (do_lock_write_ops ("Pipfile.lock") (strToL ("NEW"))))
        ("Pipfile.lock") = strToL ("NEW") ∧
      usesRename (do_lock_write_ops ("Pipfile.lock") (strToL ("NEW"))) = false ∧
      strToL ("OLD") ≠ ([] : List Char) ∧
      strToL ("OLD") ≠ strToL ("NEW") := by
  decide

/-- C5 amended: `do_lock` persists by truncating the destination in place
and appending the serialized document and a newline; an uninterrupted run
leaves exactly the document plus newline, but the sequence performs no
rename, and an interruption right after the truncation leaves the file
empty, destroying the prior valid lock. -/
theorem do_lock_write_direct (dest : String) (serialized : List Char)
    (fs0 : String → List Char) :
    runOps fs0 (do_lock_write_ops dest serialized) dest = serialized ++ strToL ("\n") ∧
      runOps fs0 (List.take 1 (do_lock_write_ops dest serialized)) dest = [] ∧
      usesRename (do_lock_write_ops dest serialized) = false := by
  refine ⟨?_, ?_, rfl⟩
  · simp [do_lock_write_ops, runOps, applyOp]
  · simp [do_lock_write_ops, runOps, applyOp]

/-- C2: on a plan whose entries before `d` all install with exit code 0
and whose entry `d` fails, the loop of `do_install_dependencies` aborts
exactly at `d`: it reports the earlier entries as installed (they are not
rolled back), surfaces the failing entry's captured stdout and stderr,
and exits with that entry's exit code.  The conclusion does not mention
the entries after `d`, so for any behavior of `run` on them the outcome is
the same: no later entry is attempted. -/
theorem do_install_dependencies_fail_fast (run : String → Bool → CmdResult)
    (pre : List (String × Bool)) (d : String × Bool) (post : List (String × Bool))
    (hpre : ∀ p ∈ pre, (run p.1 p.2).return_code = 0)
    (hd : (run d.1 d.2).return_code ≠ 0) :
    do_install_dependencies run (pre ++ d :: post) =
      InstallOutcome.aborted (pre.map Prod.fst) (run d.1 d.2).out (run d.1 d.2).err
        (run d.1 d.2).return_code := by
  induction pre with
  | nil =>
    obtain ⟨dep, ihash⟩ := d
    simp [do_install_dependencies, hd]
  | cons p pre ih =>
    obtain ⟨dep0, ihash0⟩ := p
    have h0 : (run dep0 ihash0).return_code = 0 := hpre _ (List.mem_cons_self _ _)
    have hrest := ih (fun q hq => hpre q (List.mem_cons_of_mem _ hq))
    simp [do_install_dependencies, h0, hrest]

/-- C2 witness: the stub plan `[p1, p2, p3]` with failing `p2` aborts
after installing `p1`, surfacing the stub's captured output and exit
code 1. -/
theorem do_install_dependencies_fail_fast_witness :
    do_install_dependencies runEx [("p1", false), ("p2", false), ("p3", false)] =
      InstallOutcome.aborted ["p1"] ("boom-out") ("boom-err") 1 := by
  have h := do_install_dependencies_fail_fast runEx [("p1", false)] (("p2", false))
    [("p3", false)] (by decide) (by decide)
  simpa [runEx] using h

/-- C3: in the per-source loop shared by `pip_install` and
`pip_download`, when every source before `s` fails, a success at `s`
short-circuits the loop with the result of `s`; and when `s` is the last
source the loop returns the result of `s` — in particular, when every
source fails, the returned result is that of the last attempted source,
not an aggregate error. -/
theorem for_each_source_fallback (attempt : Source → CmdResult) (pre : List Source)
    (s : Source) (post : List Source)
    (hpre : ∀ p ∈ pre, (attempt p).return_code ≠ 0) :
    ((attempt s).return_code = 0 →
        for_each_source attempt (pre ++ s :: post) = some (attempt s)) ∧
      for_each_source attempt (pre ++ [s]) = some (attempt s) := by
  induction pre with
  | nil =>
    refine ⟨fun h0 => by simp [for_each_source, h0], ?_⟩
    by_cases h0 : (attempt s).return_code = 0 <;>
      simp [for_each_source, h0]
  | cons p pre ih =>
    have hp : (attempt p).return_code ≠ 0 := hpre p (List.mem_cons_self p pre)
    have ih2 := ih (fun q hq => hpre q (List.mem_cons_of_mem p hq))
    refine ⟨fun h0 => ?_, ?_⟩
    · simp [for_each_source, hp, ih2.1 h0]
    · simp [for_each_source, hp, ih2.2]

/-- C3 witness: with source `A` failing and source `B` succeeding, the
loop returns the result of `B`; since `B` is also the last source, the
same instantiation exhibits the last-result rule. -/
theorem for_each_source_fallback_witness :
    for_each_source attemptEx [srcA, srcB] =
      some { out := "b-out", err := "", return_code := 0 } :=
  (for_each_source_fallback attemptEx [srcA] srcB [] (by decide)).2

/-- Helper: `canonFields` is a map over the fields. -/
theorem canonFields_eq_map (fs : List (List Char × Json)) :
    canonFields fs = fs.map (fun kv => (kv.1, canonicalize kv.2)) := by
  induction fs with
  | nil => simp [canonFields]
  | cons f fs ih =>
    cases f
    simp [canonFields, ih]

/-- Helper: sorting the fields of a duplicate-free object is insensitive
to the declaration order of the fields. -/
theorem sortFields_eq_of_perm (l l2 : List (List Char × Json)) (hp : l.Perm l2)
    (hnd : (l.map Prod.fst).Nodup) : sortFields l = sortFields l2 := by
  have hp1 := List.perm_insertionSort fieldLe l
  have hp2 := List.perm_insertionSort fieldLe l2
  have hps : (sortFields l).Perm (sortFields l2) := hp1.trans (hp.trans hp2.symm)
  have hnd2 : (l2.map Prod.fst).Nodup := ((hp.map Prod.fst).nodup_iff).mp hnd
  have key : ∀ m : List (List Char × Json), (m.map Prod.fst).Nodup →
      List.Sorted fieldLt (sortFields m) := by
    intro m hm
    have hsle : List.Sorted fieldLe (sortFields m) := List.sorted_insertionSort fieldLe m
    have hmnd : ((sortFields m).map Prod.fst).Nodup :=
      (((List.perm_insertionSort fieldLe m).map Prod.fst).nodup_iff).mpr hm
    have hne : (sortFields m).Pairwise (fun a b => a.1 ≠ b.1) :=
      List.pairwise_map.mp hmnd
    exact (hsle.and hne).imp (fun h => lt_of_le_of_ne h.1 h.2)
  exact List.eq_of_perm_of_sorted hps (key l hnd) (key l2 hnd2)

/-- Helper: the last element of a list extended by a singleton. -/
theorem getLast?_append_singleton {α : Type} (c : α) (xs : List α) :
    (xs ++ [c]).getLast? = some c := by
  rw [List.getLast?_append_cons]
  rfl

/-- Helper: the rendering of an object always ends with the closing
brace. -/
theorem render_obj_getLast (fs : List (List Char × Json)) (lvl : Nat) :
    (render (Json.obj fs) lvl).getLast? = some rbrace := by
  cases fs with
  | nil => simp [render]
  | cons f fs =>
    have heq : render (Json.obj (f :: fs)) lvl
        = (lbrace :: '\n' :: renderFields (f :: fs) (lvl + 1) ++ '\n' :: indentL lvl)
          ++ [rbrace] := by
      simp [render]
    rw [heq, getLast?_append_singleton]

/-- C4: the serialization step of `do_lock` is canonical and
deterministic: two lock documents that hold the same duplicate-free
fields, in any declaration order, serialize to byte-identical output; the
output ends with a single trailing newline (its last byte is the newline
written after `json.dump`, and the rendered document itself ends with the
closing brace, not a newline). -/
theorem do_lock_serialize_canonical (fs fs2 : List (List Char × Json))
    (hp : fs.Perm fs2) (hnd : (fs.map Prod.fst).Nodup) :
    do_lock_serialize (Json.obj fs) = do_lock_serialize (Json.obj fs2) ∧
      (do_lock_serialize (Json.obj fs)).getLast? = some '\n' ∧
      (render (canonicalize (Json.obj fs)) 0).getLast? = some rbrace := by
  have hobj : ∀ m, canonicalize (Json.obj m) = Json.obj (sortFields (canonFields m)) := by
    intro m
    simp [canonicalize]
  have hcf : (canonFields fs).Perm (canonFields fs2) := by
    rw [canonFields_eq_map, canonFields_eq_map]
    exact hp.map _
  have hkeys : (canonFields fs).map Prod.fst = fs.map Prod.fst := by
    rw [canonFields_eq_map, List.map_map]
    rfl
  have hnd2 : ((canonFields fs).map Prod.fst).Nodup := by
    rw [hkeys]
    exact hnd
  have hsort : sortFields (canonFields fs) = sortFields (canonFields fs2) :=
    sortFields_eq_of_perm _ _ hcf hnd2
  refine ⟨?_, ?_, ?_⟩
  · unfold do_lock_serialize
    rw [hobj fs, hobj fs2, hsort]
  · unfold do_lock_serialize
    simp
  · rw [hobj fs]
    exact render_obj_getLast _ _

/-- C4 witness: the two concrete field lists that differ only in order
serialize identically, with the stated trailing-newline shape. -/
theorem do_lock_serialize_canonical_witness :
    jsonFieldsEx1.Perm jsonFieldsEx2 ∧
      (do_lock_serialize (Json.obj jsonFieldsEx1) =
          do_lock_serialize (Json.obj jsonFieldsEx2) ∧
        (do_lock_serialize (Json.obj jsonFieldsEx1)).getLast? = some '\n' ∧
        (render (canonicalize (Json.obj jsonFieldsEx1)) 0).getLast? = some rbrace) := by
  have hperm : jsonFieldsEx1.Perm jsonFieldsEx2 := List.Perm.swap _ _ _
  exact ⟨hperm, do_lock_serialize_canonical jsonFieldsEx1 jsonFieldsEx2 hperm (by decide)⟩

/-- Helper: `dict.update` puts the new binding in the map. -/
theorem dict_update_mem_self (section0 : List (String × LockEntry)) (k : String)
    (v : LockEntry) : (k, v) ∈ dict_update section0 k v := by
  unfold dict_update
  by_cases h : section0.any (fun kv => kv.1 == k)
  · rw [if_pos h]
    rcases List.any_eq_true.mp h with ⟨kv, hmem, hk⟩
    refine List.mem_map.mpr ⟨kv, hmem, ?_⟩
    simp [hk]
  · rw [if_neg h]
    exact List.mem_append.mpr (Or.inr (List.mem_singleton.mpr rfl))

/-- Helper: `dict.update` keeps every binding with a different key. -/
theorem dict_update_mem_other (section0 : List (String × LockEntry)) (k : String)
    (v : LockEntry) (e : String × LockEntry) (hne : e.1 ≠ k) (hmem : e ∈ section0) :
    e ∈ dict_update section0 k v := by
  unfold dict_update
  by_cases h : section0.any (fun kv => kv.1 == k)
  · rw [if_pos h]
    refine List.mem_map.mpr ⟨e, hmem, ?_⟩
    simp [hne]
  · rw [if_neg h]
    exact List.mem_append.mpr (Or.inl hmem)

/-- Helper: a binding whose key no resolver result mentions survives the
whole result-merge loop unchanged. -/
theorem add_results_mem_other (no_hashes : Bool) (results : List Resolved)
    (section0 : List (String × LockEntry)) (e : String × LockEntry)
    (hk : ∀ dep ∈ results, dep.name ≠ e.1) (hmem : e ∈ section0) :
    e ∈ add_results no_hashes section0 results := by
  induction results generalizing section0 with
  | nil => simpa [add_results] using hmem
  | cons dep rest ih =>
    simp only [add_results]
    refine ih _ (fun q hq => hk q (List.mem_cons_of_mem _ hq)) ?_
    exact dict_update_mem_other _ _ _ _
      (fun hco => (hk dep (List.mem_cons_self _ _)) hco.symm) hmem

/-- Helper: each resolver result ends up in the merged section with its
pinned entry, provided the result names are duplicate-free. -/
theorem add_results_mem_resolved (no_hashes : Bool) (results : List Resolved)
    (section0 : List (String × LockEntry)) (dep : Resolved)
    (hnd : (results.map Resolved.name).Nodup) (hmem : dep ∈ results) :
    (dep.name, mkLockEntry no_hashes dep) ∈ add_results no_hashes section0 results := by
  induction results generalizing section0 with
  | nil => cases hmem
  | cons dep0 rest ih =>
    have hnd2 : (dep0.name ∉ rest.map Resolved.name) ∧ (rest.map Resolved.name).Nodup := by
      rw [List.map_cons, List.nodup_cons] at hnd
      exact hnd
    simp only [add_results]
    rcases List.mem_cons.mp hmem with heq | hmem2
    · subst heq
      refine add_results_mem_other no_hashes rest _ _ ?_ (dict_update_mem_self _ _ _)
      intro q hq hname
      exact hnd2.1 (List.mem_map.mpr ⟨q, hq, hname⟩)
    · exact ih _ hnd2.2 hmem2

/-- Helper: the cleanup loop leaves no string-valued entry behind. -/
theorem cleanup_section_no_str (section0 : List (String × LockEntry)) (k : String)
    (s : String) : (k, LockEntry.str s) ∉ cleanup_section section0 := by
  intro hmem
  have h := (List.mem_filter.mp hmem).2
  simp [isDictEntry] at h

/-- Helper: the result-merge loop introduces no string-valued entry. -/
theorem add_results_no_str (no_hashes : Bool) (results : List Resolved)
    (section0 : List (String × LockEntry))
    (h : ∀ k s, (k, LockEntry.str s) ∉ section0) :
    ∀ k s, (k, LockEntry.str s) ∉ add_results no_hashes section0 results := by
  induction results generalizing section0 with
  | nil => simpa [add_results] using h
  | cons dep rest ih =>
    simp only [add_results]
    refine ih _ ?_
    intro k s hmem
    unfold dict_update at hmem
    by_cases hany : section0.any (fun kv => kv.1 == dep.name)
    · rw [if_pos hany] at hmem
      rcases List.mem_map.mp hmem with ⟨kv, hkv, heq⟩
      by_cases hkk : kv.1 == dep.name
      · rw [if_pos hkk] at heq
        have hsnd : mkLockEntry no_hashes dep = LockEntry.str s := congrArg Prod.snd heq
        simp [mkLockEntry] at hsnd
      · rw [if_neg hkk] at heq
        exact h k s (heq ▸ hkv)
    · rw [if_neg hany] at hmem
      rcases List.mem_append.mp hmem with h1 | h2
      · exact h k s h1
      · have h3 := List.mem_singleton.mp h2
        have hsnd : LockEntry.str s = mkLockEntry no_hashes dep := congrArg Prod.snd h3
        simp [mkLockEntry] at hsnd

/-- C6 counterexample: the claim that no package entry absent from the
current resolution survives into the synthesized maps is false — a
dict-valued entry `ghost` in the starting develop map survives `do_lock`
untouched although the (non-empty) resolution does not mention it. -/
theorem do_lock_update_stale_survives_cex :
    ("ghost", LockEntry.dict ("==1.0") none) ∈
      (do_lock_update lockStartEx [resolvedEx] [resolvedEx] ("m") true).develop := by
  decide

/-- C6 amended: `do_lock` rebuilds the two maps by incremental merge, not
full replacement: string-valued entries are removed (and never
re-created), every resolved package lands in its map with the pinned
`==version` entry (hashes unless `no_hashes`), but dict-valued entries
whose key the resolution does not mention survive; the `_meta` hash is
preserved while the host-environment markers are regenerated. -/
theorem do_lock_update_merge (start : Lockfile) (devResults defResults : List Resolved)
    (markers : String) (no_hashes : Bool)
    (hdefnd : (defResults.map Resolved.name).Nodup)
    (hdevnd : (devResults.map Resolved.name).Nodup) :
    (do_lock_update start devResults defResults markers no_hashes).meta_hash =
        start.meta_hash ∧
      (do_lock_update start devResults defResults markers no_hashes).meta_markers =
        some markers ∧
      (∀ dep ∈ defResults, (dep.name, mkLockEntry no_hashes dep) ∈
        (do_lock_update start devResults defResults markers no_hashes).default) ∧
      (∀ dep ∈ devResults, (dep.name, mkLockEntry no_hashes dep) ∈
        (do_lock_update start devResults defResults markers no_hashes).develop) ∧
      (∀ k v h, (k, LockEntry.dict v h) ∈ start.default →
        (∀ dep ∈ defResults, dep.name ≠ k) →
        (k, LockEntry.dict v h) ∈
          (do_lock_update start devResults defResults markers no_hashes).default) ∧
      (∀ k v h, (k, LockEntry.dict v h) ∈ start.develop →
        (∀ dep ∈ devResults, dep.name ≠ k) →
        (k, LockEntry.dict v h) ∈
          (do_lock_update start devResults defResults markers no_hashes).develop) ∧
      (∀ k s, (k, LockEntry.str s) ∉
        (do_lock_update start devResults defResults markers no_hashes).default) ∧
      (∀ k s, (k, LockEntry.str s) ∉
        (do_lock_update start devResults defResults markers no_hashes).develop) := by
  refine ⟨rfl, rfl, ?_, ?_, ?_, ?_, ?_, ?_⟩
  · intro dep hdep
    exact add_results_mem_resolved no_hashes defResults _ dep hdefnd hdep
  · intro dep hdep
    exact add_results_mem_resolved no_hashes devResults _ dep hdevnd hdep
  · intro k v h hmem hout
    refine add_results_mem_other no_hashes defResults _ _ hout ?_
    exact List.mem_filter.mpr ⟨hmem, rfl⟩
  · intro k v h hmem hout
    refine add_results_mem_other no_hashes devResults _ _ hout ?_
    exact List.mem_filter.mpr ⟨hmem, rfl⟩
  · exact add_results_no_str no_hashes defResults _ (fun k s => cleanup_section_no_str _ k s)
  · exact add_results_no_str no_hashes devResults _ (fun k s => cleanup_section_no_str _ k s)

/-- C6 witness: the amended merge description instantiated at the
concrete starting lock and a one-package resolution. -/
theorem do_lock_update_merge_witness :
    (([resolvedEx].map Resolved.name).Nodup ∧ ([resolvedEx].map Resolved.name).Nodup) ∧
      ((do_lock_update lockStartEx [resolvedEx] [resolvedEx] ("m") true).meta_hash =
          lockStartEx.meta_hash ∧
        (do_lock_update lockStartEx [resolvedEx] [resolvedEx] ("m") true).meta_markers =
          some ("m") ∧
        (∀ dep ∈ [resolvedEx], (dep.name, mkLockEntry true dep) ∈
          (do_lock_update lockStartEx [resolvedEx] [resolvedEx] ("m") true).default) ∧
        (∀ dep ∈ [resolvedEx], (dep.name, mkLockEntry true dep) ∈
          (do_lock_update lockStartEx [resolvedEx] [resolvedEx] ("m") true).develop) ∧
        (∀ k v h, (k, LockEntry.dict v h) ∈ lockStartEx.default →
          (∀ dep ∈ [resolvedEx], dep.name ≠ k) →
          (k, LockEntry.dict v h) ∈
            (do_lock_update lockStartEx [resolvedEx] [resolvedEx] ("m") true).default) ∧
        (∀ k v h, (k, LockEntry.dict v h) ∈ lockStartEx.develop →
          (∀ dep ∈ [resolvedEx], dep.name ≠ k) →
          (k, LockEntry.dict v h) ∈
            (do_lock_update lockStartEx [resolvedEx] [resolvedEx] ("m") true).develop) ∧
        (∀ k s, (k, LockEntry.str s) ∉
          (do_lock_update lockStartEx [resolvedEx] [resolvedEx] ("m") true).default) ∧
        (∀ k s, (k, LockEntry.str s) ∉
          (do_lock_update lockStartEx [resolvedEx] [resolvedEx] ("m") true).develop)) :=
  ⟨⟨by decide, by decide⟩,
    do_lock_update_merge lockStartEx [resolvedEx] [resolvedEx] ("m") true
      (by decide) (by decide)⟩

/-- C7: when hash enforcement is requested (`ignore_hashes` false) but
the requirements text of an entry carries no `--hash`, `pip_install`
downgrades enforcement for that entry: the command sent to every source
is built without the `--require-hashes` flag and the installation is
attempted through the normal per-source loop rather than failing — the
function has no failure path for a missing hash, so an entry can only be
rejected over hashes when a hash-carrying requirements file makes the
flag (and with it hash-only mode) explicit, as in the second conjunct. -/
theorem pip_install_hash_downgrade (run : List Char → CmdResult)
    (pip package_name rpath content : List Char) (no_deps : Bool)
    (sources : List Source)
    (hmiss : containsSub (strToL ("--hash")) content = false) :
    pip_install run pip package_name (some (rpath, content)) false no_deps sources =
      for_each_source
        (fun s => run (pip_install_command pip
          (if no_deps then strToL ("--no-deps") else [])
          (pip_install_reqs (some (rpath, content)) package_name)
          (strToL s.url)))
        sources ∧
      (∀ content2, containsSub (strToL ("--hash")) content2 = true →
        pip_install run pip package_name (some (rpath, content2)) false no_deps sources =
          for_each_source
            (fun s => run (pip_install_command pip
              (if no_deps then strToL ("--no-deps") else [])
              (pip_install_reqs (some (rpath, content2)) package_name ++
                strToL (" --require-hashes"))
              (strToL s.url)))
            sources) := by
  constructor
  · unfold pip_install
    simp [pip_install_ignore_hashes, hmiss]
  · intro content2 hhit
    unfold pip_install
    simp [pip_install_ignore_hashes, hhit]

/-- C7 witness: a hash-less requirements file installs through a stub
that fails whenever the `--require-hashes` flag is present, and the
install succeeds — the flag was dropped, not the entry. -/
theorem pip_install_hash_downgrade_witness :
    containsSub (strToL ("--hash")) (strToL ("requests==2.18.4")) = false ∧
      pip_install runHashEx (strToL ("/venv/bin/pip")) (strToL ("requests==2.18.4"))
          (some (strToL ("/tmp/req.txt"), strToL ("requests==2.18.4"))) false true
          [srcA] =
        some { out := "ok", err := "", return_code := 0 } := by
  refine ⟨by decide, ?_⟩
  have h := (pip_install_hash_downgrade runHashEx (strToL ("/venv/bin/pip"))
    (strToL ("requests==2.18.4")) (strToL ("/tmp/req.txt"))
    (strToL ("requests==2.18.4")) true [srcA] (by decide)).1
  rw [h]
  decide
